import Mathlib

/-!
Verification of the gene-editing spreadsheet pipeline
(`python_service/report_generator`): a shallow embedding of
`mutation_highlighter.py` and `gene_editing_processor.py` together with
theorems settling the behavioural claims about grouping, simplification,
mutation highlighting/verification, red-run extraction, fill-color
classification and renumbering.

Cells are modelled by their string values (plus fill / font colours and
rich-text runs where the code inspects them); numeric cells appear as their
string forms, which is the only shape the verified code paths distinguish.
-/

/-! ## Shared string helpers (Python semantics) -/

/-- ASCII whitespace, as matched by Python's `str.strip()` and `\s`. -/
def pySpace (c : Char) : Bool :=
  c = ' ' || c = '\t' || c = '\n' || c = '\r' || c = '\x0b' || c = '\x0c'

/-- `str.strip()` on a character list. -/
def pyStripList (cs : List Char) : List Char :=
  ((cs.dropWhile pySpace).reverse.dropWhile pySpace).reverse

/-- Python `str.strip()`. -/
def pyStrip (s : String) : String := String.mk (pyStripList s.data)

/-- Python `s.upper()` for the ASCII strings the pipeline handles. -/
def pyUpper (s : String) : String := String.mk (s.data.map Char.toUpper)

/-- Python slice `s[a:b]` on a character list (non-negative indices). -/
def pySlice (cs : List Char) (a b : Nat) : List Char := (cs.drop a).take (b - a)

/-- First index at which `pat` occurs as a contiguous sublist of `hay`
(Python `str.find`), or `none`. -/
def findSub : List Char → List Char → Option Nat
  | [], pat => if pat = [] then some 0 else none
  | c :: cs, pat =>
    if pat.isPrefixOf (c :: cs) then some 0
    else (findSub cs pat).map (· + 1)

/-- The four DNA base letters. -/
def baseChars : List Char := ['A', 'T', 'C', 'G']

/-- Digits of a non-negative integer literal. -/
def natOfDigits (ds : List Char) : Nat :=
  ds.foldl (fun a c => a * 10 + (c.toNat - '0'.toNat)) 0

/-- Python `int(s)` restricted to optionally signed decimal strings
(the only cell shapes the pipeline feeds it). -/
def pyInt (s : String) : Option Int :=
  match (pyStrip s).data with
  | [] => none
  | '-' :: ds => if ds ≠ [] ∧ ds.all Char.isDigit then some (-(natOfDigits ds : Int)) else none
  | '+' :: ds => if ds ≠ [] ∧ ds.all Char.isDigit then some (natOfDigits ds : Int) else none
  | ds => if ds.all Char.isDigit then some (natOfDigits ds : Int) else none

/-- Value of one hex digit, or `none` (a failing `int(_, 16)`). -/
def hexDigit (c : Char) : Option Nat :=
  if '0' ≤ c ∧ c ≤ '9' then some (c.toNat - '0'.toNat)
  else if 'a' ≤ c ∧ c ≤ 'f' then some (c.toNat - 'a'.toNat + 10)
  else if 'A' ≤ c ∧ c ≤ 'F' then some (c.toNat - 'A'.toNat + 10)
  else none

/-- `int(two hex chars, 16)`. -/
def hexPair (a b : Char) : Option Nat :=
  match hexDigit a, hexDigit b with
  | some x, some y => some (16 * x + y)
  | _, _ => none

/-! ## Mutation highlighter (`mutation_highlighter.py`) -/

namespace MH

/-- Default target 20bp window (`MutationHighlighter.__init__`). -/
def targetSequence : String := "TGGAGACACTAGAGGGATGG"

/-- One record of `HighlightResult` (the Chinese free-text
`verification_detail` log message is not modelled). -/
structure HighlightResult where
  row_index : Nat
  sequence_id : String
  mutation_type : String
  highlight_color : String
  f_value : String
  g_value : String
  verification_status : String
  actual_mutation : String
deriving DecidableEq

/-- `re.match(r'([ATCG])->([ATCG])', s)`: anchored prefix match of a
single normalized mutation code. -/
def parseClaimedMutation (s : String) : Option (Char × Char) :=
  match s.data with
  | c1 :: '-' :: '>' :: c2 :: _ =>
    if c1 ∈ baseChars ∧ c2 ∈ baseChars then some (c1, c2) else none
  | _ => none

/-- `"X->Y"` from two base characters. -/
def mkMutString (a b : Char) : String := String.mk [a, '-', '>', b]

/-- `_get_sequence_id`: leading digits before a `'-'` (`^(\d+)-`). -/
def getSequenceId (v : String) : Option String :=
  let cs := (pyStrip v).data
  let ds := cs.takeWhile Char.isDigit
  if ds ≠ [] ∧ (cs.drop ds.length).headD ' ' = '-' then some (String.mk ds) else none

/-- `_is_sequence_header`: the first cell matches `^\d+-ref`; returns the
flag together with the extracted numeric id. -/
def isSequenceHeaderRow (row : List (Option String)) : Bool × Option String :=
  match row.headD none with
  | none => (false, none)
  | some v =>
    let cs := (pyStrip v).data
    let ds := cs.takeWhile Char.isDigit
    if ds ≠ [] ∧ ['-', 'r', 'e', 'f'].isPrefixOf (cs.drop ds.length) then
      (true, getSequenceId v)
    else (false, none)

/-- `_find_target_sequence_position`: case-insensitive search of the target
window, returning its `(start, end)` span. -/
def findTargetPos (sequence : String) : Option (Nat × Nat) :=
  if sequence = "" then none
  else
    match findSub (pyUpper sequence).data targetSequence.data with
    | some p => some (p, p + targetSequence.length)
    | none => none

/-- `_check_mutation_in_position`: the claimed code's lowercase target base
occurs inside the anchored window slice of the candidate sequence.
(`start` is a `Nat` here; the caller only passes anchored spans.) -/
def checkMutationInPosition (sequence mutationType : String) (pos : Nat × Nat) : Bool :=
  if sequence = "" ∨ mutationType = "" then false
  else if pos.2 > sequence.length then false
  else
    match parseClaimedMutation (pyUpper mutationType) with
    | none => false
    | some pr => decide (pr.2.toLower ∈ pySlice sequence.data pos.1 pos.2)

/-- `_get_highlight_color`: the mutation-code → colour table
(`C->T`→yellow, `A->G`→green, `G->A`/`T->C`→orange). -/
def getHighlightColor (mutationType : String) : Option String :=
  if mutationType = "" then none
  else
    let normalized := String.mk ((mutationType.data.map Char.toUpper).filter (· ≠ ' '))
    if normalized = "C->T" then some "yellow"
    else if normalized = "A->G" then some "green"
    else if normalized = "G->A" then some "orange"
    else if normalized = "T->C" then some "orange"
    else none

/-- Separator characters of `re.split(r'[,;\s]+', value)`. -/
def isColSep (c : Char) : Bool := c = ',' || c = ';' || pySpace c

/-- Split into maximal separator-free tokens (empty tokens are dropped;
the source drops them one step later via `continue`). -/
def splitTokens : List Char → List Char → List (List Char)
  | [], acc => if acc = [] then [] else [acc.reverse]
  | c :: cs, acc =>
    if isColSep c then
      if acc = [] then splitTokens cs [] else acc.reverse :: splitTokens cs []
    else splitTokens cs (c :: acc)

/-- Separator run of `[-–>]+` inside one mutation token. -/
def isMutSep (c : Char) : Bool := c = '-' || c = '–' || c = '>'

/-- `re.match(r'([ATCG])[-–>]+([ATCG])', part)` on an uppercased token. -/
def parseMutToken (cs : List Char) : Option (Char × Char) :=
  match cs with
  | [] => none
  | c1 :: rest =>
    if c1 ∈ baseChars then
      let seps := rest.takeWhile isMutSep
      if seps = [] then none
      else
        match rest.drop seps.length with
        | c2 :: _ => if c2 ∈ baseChars then some (c1, c2) else none
        | [] => none
    else none

/-- `_parse_mutations_from_column`: tokenize an F/G detail cell and
normalize each recognized code to `X->Y`. -/
def parseMutationsFromColumn (value : String) : List String :=
  if value = "" ∨ pyStrip value = "-" then []
  else
    (splitTokens value.data []).filterMap fun tok =>
      let part := (pyStripList tok).map Char.toUpper
      if part = [] ∨ part = ['-'] then none
      else (parseMutToken part).map fun pr => mkMutString pr.1 pr.2

/-- `_get_mutation_intersection`: the source computes
`list(set(f) & set(g))`, whose enumeration order is implementation-defined;
we fix the first-occurrence order of the left list. -/
def getMutationIntersection (f g : List String) : List String :=
  f.eraseDups.filter (· ∈ g)

/-- Verifier outcome (`(status, actual_mutation)`; the free-text detail
message is log output and not modelled). -/
structure VerifyResult where
  status : String
  actual : String
deriving DecidableEq

/-- The `actual_mutations_found` list of `_verify_mutation_with_wt`:
`(position, wtBase, candidateBase)` for every lowercase candidate
position of the window. -/
def observedTransitions (wtRegion mutRegion : List Char) : List (Nat × Char × Char) :=
  (wtRegion.zip mutRegion).enum.filterMap fun p =>
    if p.2.2.isLower then some (p.1, p.2.1.toUpper, p.2.2.toUpper) else none

/-- `", ".join` of the observed codes (last fallthrough branch). -/
def joinActuals (found : List (Nat × Char × Char)) : String :=
  String.intercalate ", " (found.map fun m => mkMutString m.2.1 m.2.2)

/-- `_verify_mutation_with_wt` with the instance field
`self.current_wt_sequence` made an explicit first argument. -/
def verifyMutationWithWT (wtSequence mutatedSequence claimedMutation : String)
    (pos : Nat × Nat) : VerifyResult :=
  if wtSequence = "" ∨ mutatedSequence = "" then ⟨"unknown", ""⟩
  else if pos.2 > wtSequence.length ∨ pos.2 > mutatedSequence.length then ⟨"unknown", ""⟩
  else
    match parseClaimedMutation (pyUpper claimedMutation) with
    | none => ⟨"unknown", ""⟩
    | some (cf, ct) =>
      let wtRegion := pySlice wtSequence.data pos.1 pos.2
      let mutRegion := pySlice mutatedSequence.data pos.1 pos.2
      let found := observedTransitions wtRegion mutRegion
      if h : found = [] then ⟨"unknown", ""⟩
      else if found.any (fun m => m.2.1 = cf ∧ m.2.2 = ct) then
        ⟨"correct", mkMutString cf ct⟩
      else if found.any (fun m => m.2.2 = ct) then
        ⟨"error", mkMutString (found.head h).2.1 (found.head h).2.2⟩
      else
        ⟨"error", joinActuals found⟩

/-- Loop state of `process_file`, including the outputs it accumulates:
applied row fills, re-rendered red windows in the H column, and the
`HighlightResult` records. -/
structure HState where
  curSeqId : Option String
  hasTarget : Bool
  targetPos : Nat × Nat
  wtSequence : String
  usedMutations : List String
  results : List HighlightResult
  rowFills : List (Nat × String)
  redRegions : List (Nat × Nat × Nat)
deriving DecidableEq

def initState : HState :=
  { curSeqId := none, hasTarget := false, targetPos := (0, 0), wtSequence := ""
    usedMutations := [], results := [], rowFills := [], redRegions := [] }

/-- `str(row_data[i]).strip() if len(row_data) > i and row_data[i] else ""`. -/
def getCol (row : List (Option String)) (i : Nat) : String :=
  match row.getD i none with
  | none => ""
  | some s => if s = "" then "" else pyStrip s

/-- All cells empty or whitespace-only. -/
def isEmptyRow (row : List (Option String)) : Bool :=
  row.all fun c =>
    match c with
    | none => true
    | some s => pyStrip s = ""

/-- The inner loop over the intersection codes: first code not yet used in
this group whose colour is defined and whose target base appears in the
anchored window of the H cell. -/
def findMatchingNewMutation (usedMutations : List String) (hValue : String)
    (targetPos : Nat × Nat) : List String → Option (String × String)
  | [] => none
  | m :: rest =>
    if m ∈ usedMutations then findMatchingNewMutation usedMutations hValue targetPos rest
    else
      match getHighlightColor m with
      | some c =>
        if checkMutationInPosition hValue m targetPos then some (m, c)
        else findMatchingNewMutation usedMutations hValue targetPos rest
      | none => findMatchingNewMutation usedMutations hValue targetPos rest

/-- Applying one verified highlight: fill the row, re-render the window
red in the H cell (column 8) when in range, mark the code used, record
the result. -/
def applyHighlight (st : HState) (rowIdx : Nat) (f g h mutation color : String)
    (vr : VerifyResult) : HState :=
  let redRegs :=
    if h ≠ "" ∧ st.targetPos.2 ≤ h.length then
      st.redRegions ++ [(rowIdx, st.targetPos.1, st.targetPos.2)]
    else st.redRegions
  { st with
    rowFills := st.rowFills ++ [(rowIdx, color)]
    redRegions := redRegs
    usedMutations := st.usedMutations ++ [mutation]
    results := st.results ++
      [{ row_index := rowIdx, sequence_id := st.curSeqId.getD "",
         mutation_type := mutation, highlight_color := color,
         f_value := f, g_value := g,
         verification_status := vr.status, actual_mutation := vr.actual }] }

/-- One iteration of the row loop of `process_file`. -/
def processRow (st : HState) (rowIdx : Nat) (row : List (Option String)) : HState :=
  let hdr := isSequenceHeaderRow row
  if hdr.1 then
    { st with curSeqId := hdr.2, hasTarget := false, targetPos := (0, 0), usedMutations := [] }
  else if isEmptyRow row then st
  else
    let d := getCol row 3
    let e := getCol row 4
    let f := getCol row 5
    let g := getCol row 6
    let h := getCol row 7
    if d = "WT" ∧ e = "WT" then
      match findTargetPos h with
      | some pos => { st with hasTarget := true, targetPos := pos, wtSequence := h }
      | none => st
    else if ¬ st.hasTarget then st
    else if (f = "-" ∨ f = "") ∧ (g = "-" ∨ g = "") then st
    else
      let fMuts := parseMutationsFromColumn f
      let gMuts := parseMutationsFromColumn g
      if fMuts = [] ∧ gMuts = [] then st
      else
        let common := getMutationIntersection fMuts gMuts
        if common = [] then st
        else
          match findMatchingNewMutation st.usedMutations h st.targetPos common with
          | none => st
          | some (mutation, color) =>
            let vr := verifyMutationWithWT st.wtSequence h mutation st.targetPos
            if vr.status = "error" then st
            else applyHighlight st rowIdx f g h mutation color vr

/-- `process_file`'s full row loop over a grid (1-based row indices). -/
def processGrid (grid : List (List (Option String))) : HState :=
  grid.enum.foldl (fun st p => processRow st (p.1 + 1) p.2) initState

/-- The statistics section of the returned report. -/
structure HReport where
  totalHighlighted : Nat
  correctCount : Nat
  errorCount : Nat
  unknownCount : Nat
  errorMutations : List (Nat × String × String × String)
deriving DecidableEq

/-- Report assembly from the accumulated results: counts per verification
status and the `error_mutations` details list
`(row, sequence_id, claimed, actual)`. -/
def buildReport (results : List HighlightResult) : HReport :=
  { totalHighlighted := results.length
    correctCount := (results.filter (fun r => r.verification_status = "correct")).length
    errorCount := (results.filter (fun r => r.verification_status = "error")).length
    unknownCount := (results.filter (fun r => r.verification_status = "unknown")).length
    errorMutations := (results.filter (fun r => r.verification_status = "error")).map
      fun r => (r.row_index, r.sequence_id, r.mutation_type, r.actual_mutation) }

/-! ### Concrete grids for the worked examples -/

/-- `"AAAA" + window + "CCCC"`: the anchored WT H-cell value. -/
def wtExampleSeq : String := "AAAA" ++ targetSequence ++ "CCCC"

/-- Candidate identical to WT except a lowercase `t` at the absolute
offset of window index 6 (WT base `C`). -/
def candCorrectSeq : String := "AAAATGGAGAtACTAGAGGGATGGCCCC"

/-- Candidate identical to WT except a lowercase `a` at the absolute
offset of window index 6 (WT base `C`). -/
def candWrongSeq : String := "AAAATGGAGAaACTAGAGGGATGGCCCC"

/-- Candidate with a lowercase `t` at the absolute offset of window
index 1, where the WT base is `G`: observed `G->T`. -/
def candGTSeq : String := "AAAATtGAGACACTAGAGGGATGGCCCC"

def headerRowEx : List (Option String) :=
  [some "001-refTest", none, none, none, none, none, none, none]

def wtRowEx : List (Option String) :=
  [none, some "100", some "50%", some "WT", some "WT", some "-", some "-", some wtExampleSeq]

def candRowOf (seq : String) : List (Option String) :=
  [none, some "40", some "20%", some "SNP", some "SNP", some "C->T", some "C->T", some seq]

/-- Grid of the positive verification example (claim C2). -/
def gridCorrect : List (List (Option String)) :=
  [headerRowEx, wtRowEx, candRowOf candCorrectSeq]

/-- Grid of the negative verification example (claim C3). -/
def gridWrong : List (List (Option String)) :=
  [headerRowEx, wtRowEx, candRowOf candWrongSeq]

/-- Grid whose candidate is a verification `error` (observed `G->T`,
claimed `C->T`) that still passes the lowercase-target-base precheck. -/
def gridError : List (List (Option String)) :=
  [headerRowEx, wtRowEx, candRowOf candGTSeq]

end MH

/-! ## Gene-editing processor (`gene_editing_processor.py`) -/

namespace GE

/-- One rich-text run: text plus its font colour (`TextBlock`). -/
structure TextRun where
  text : String
  fontRgb : Option String
deriving DecidableEq

/-- A cell value: a plain string or a rich-text run list (`CellRichText`).
Numeric cells appear as their string forms in this embedding. -/
inductive CellValue
  | str (s : String)
  | rich (runs : List TextRun)
deriving DecidableEq

/-- A styled cell: value, background-fill colour and whole-cell font
colour (the style attributes the processor inspects). -/
structure Cell where
  value : Option CellValue
  fillRgb : Option String
  fontRgb : Option String
deriving DecidableEq

/-- `str(value)`: rich text prints as the concatenation of its runs. -/
def cellText : CellValue → String
  | .str s => s
  | .rich runs => String.join (runs.map TextRun.text)

/-- Python truthiness of a cell value (`None`, `""` and an empty rich-text
list are falsy). -/
def cvTruthy : Option CellValue → Bool
  | none => false
  | some (.str s) => s ≠ ""
  | some (.rich runs) => runs ≠ []

/-- `\w` word characters of the identifier pattern. -/
def isWordChar (c : Char) : Bool := c.isAlpha || c.isDigit || c = '_'

/-- `re.match(r'^(\d+)-ref(\w+)$', s)`: the full-identifier pattern,
returning `(digits, referenceName)`. -/
def fullHeaderMatch (s : String) : Option (String × String) :=
  let cs := s.data
  let ds := cs.takeWhile Char.isDigit
  if ds = [] then none
  else
    let rest := cs.drop ds.length
    if ['-', 'r', 'e', 'f'].isPrefixOf rest then
      let name := rest.drop 4
      if name ≠ [] ∧ name.all isWordChar then some (String.mk ds, String.mk name)
      else none
    else none

/-- One ingested row (`SequenceEntry`); `original_sequence_value` is not
modelled (nothing the verified transforms read depends on it). -/
structure SequenceEntry where
  sequence_id : String
  reference_name : String
  row_number : Nat
  depth : Int
  percentage_raw : String
  data_type : String
  snp_type : String
  full_sequence : String
  left_sequence : String
  right_sequence : String
  is_wt : Bool
  is_highlighted : Bool
  highlight_color : String
  has_valid_data : Bool
  original_row : List (Option CellValue)
  original_row_cells : List Cell
deriving DecidableEq

/-- A file-order sequence group (`{seq_id, ref_name, all_entries}`). -/
structure SequenceGroup where
  seq_id : String
  ref_name : String
  all_entries : List SequenceEntry
deriving DecidableEq

/-- One output row of the simplifier (`SimplifiedRow`). -/
structure SimplifiedRow where
  sequence_id : String
  reference_name : String
  row_type : String
  red_20_bases : String
  original_row_values : List (Option CellValue)
  is_highlighted : Bool
  highlight_color : String
  original_row_num : Nat
  is_simplified : Bool
deriving DecidableEq

/-- `r, g, b` of the last six hex digits of a fill colour string of
length at least 6 (`color[-6:-4]`, `color[-4:-2]`, `color[-2:]`);
`none` when a hex parse fails (the swallowed exception). -/
def rgbOfColor (color : String) : Option (Nat × Nat × Nat) :=
  let cs := color.data
  match cs.drop (cs.length - 6) with
  | [r1, r2, g1, g2, b1, b2] =>
    match hexPair r1 r2, hexPair g1 g2, hexPair b1 b2 with
    | some r, some g, some b => some (r, g, b)
    | _, _, _ => none
  | _ => none

/-- The ordered per-cell colour rules of `_is_row_highlighted`, after a
successful hex parse of the fill colour. -/
def classifyRGB (color : String) (r g b : Nat) : Option String :=
  if r > 240 ∧ g > 240 ∧ b > 240 then none
  else if r = 0 ∧ g = 0 ∧ b = 0 ∧ pyUpper color = "00000000" then none
  else if r > 200 ∧ g > 200 ∧ b < 100 then some "yellow"
  else if g > 180 ∧ g > r ∧ g > b ∧ b < 120 then some "green"
  else if b > 150 ∧ b > r ∧ b > g then some "blue"
  else if r > 200 ∧ b > 150 ∧ g < 180 then some "pink"
  else if ¬(r < 50 ∧ g < 50 ∧ b < 50) then
    if r > 80 ∨ g > 80 ∨ b > 80 then some "other" else none
  else none

/-- Bucket of one cell's fill colour (`none` = the loop `continue`s). -/
def classifyFill (fillRgb : Option String) : Option String :=
  match fillRgb with
  | none => none
  | some color =>
    if color.length ≥ 6 then
      match rgbOfColor color with
      | some (r, g, b) => classifyRGB color r g b
      | none => none
    else none

/-- `_is_row_highlighted`: first cell whose fill classifies into a bucket
wins; otherwise `(False, "")`. -/
def is_row_highlighted : List Cell → Bool × String
  | [] => (false, "")
  | c :: rest =>
    match classifyFill c.fillRgb with
    | some bucket => (true, bucket)
    | none => is_row_highlighted rest

/-- `re.search(r'([ATCG])->([ATCG])', s, re.IGNORECASE)` at one position. -/
def matchMutAt : List Char → Bool
  | c1 :: '-' :: '>' :: c2 :: _ => decide (c1 ∈ baseChars) && decide (c2 ∈ baseChars)
  | _ => false

/-- Unanchored case-insensitive search for a `X->Y` mutation code. -/
def searchMut : List Char → Bool
  | [] => false
  | c :: cs => matchMutAt (c :: cs) || searchMut cs

/-- `mutation_pattern.search(value)` on the uppercased detail string. -/
def hasMutationCode (s : String) : Bool := searchMut (pyUpper s).data

/-- `str(v).strip().upper()` of an optional cell value (`""` for `None`). -/
def colUpper (v : Option CellValue) : String :=
  match v with
  | none => ""
  | some cv => pyUpper (pyStrip (cellText cv))

/-- `str(v).strip()` of an optional cell value (`""` for `None`). -/
def colStripped (v : Option CellValue) : String :=
  match v with
  | none => ""
  | some cv => pyStrip (cellText cv)

/-- A sequence field: kept verbatim (stripped) only when it has more than
20 base characters after cleaning, else `""`. -/
def seqField (v : Option CellValue) : String :=
  match v with
  | none => ""
  | some cv =>
    let s := pyStrip (cellText cv)
    if (s.data.filter (fun c => c.toUpper ∈ baseChars)).length > 20 then s else ""

/-- A lowercase base letter occurs in the string. -/
def hasLowerBase (s : String) : Bool :=
  s.data.any fun c => c.isLower && decide (c.toUpper ∈ baseChars)

/-- `_parse_data_row`: field extraction and WT/SNP classification for one
data row (the broad `except` never fires in this model). -/
def parseDataRow (rowData : List (Option CellValue)) (rowIdx : Nat)
    (seqId refName : String) (isHighlighted : Bool) (highlightColor : String)
    (rowCells : List Cell) : SequenceEntry :=
  let depth : Int :=
    match rowData.getD 1 none with
    | some (.str s) => (pyInt s).getD 0
    | _ => 0
  let percentageRaw : String :=
    match rowData.getD 2 none with
    | some (.str s) => if '%' ∈ s.data then s else ""
    | _ => ""
  let leftType := colUpper (rowData.getD 3 none)
  let rightType := colUpper (rowData.getD 4 none)
  let leftVar := colStripped (rowData.getD 5 none)
  let rightVar := colStripped (rowData.getD 6 none)
  let leftHasMutation := hasMutationCode leftVar
  let rightHasMutation := hasMutationCode rightVar
  let snpType :=
    if leftHasMutation && rightHasMutation then leftVar
    else if leftHasMutation then leftVar
    else if rightHasMutation then rightVar
    else ""
  let dataType :=
    if leftType = "WT" ∧ rightType = "WT" then "WT"
    else if leftType = "SNP" ∨ rightType = "SNP" then "SNP"
    else if leftType ≠ "WT" then leftType else rightType
  let leftSeq := seqField (rowData.getD 7 none)
  let rightSeq := seqField (rowData.getD 8 none)
  let fullSequence :=
    if isHighlighted && leftSeq ≠ "" then leftSeq
    else if hasLowerBase leftSeq then leftSeq
    else if hasLowerBase rightSeq then rightSeq
    else if leftSeq ≠ "" then leftSeq else rightSeq
  { sequence_id := seqId
    reference_name := refName
    row_number := rowIdx
    depth := depth
    percentage_raw := percentageRaw
    data_type := dataType
    snp_type := snpType
    full_sequence := fullSequence
    left_sequence := leftSeq
    right_sequence := rightSeq
    is_wt := leftType = "WT" ∧ rightType = "WT"
    is_highlighted := isHighlighted
    highlight_color := highlightColor
    has_valid_data := depth > 0
    original_row := rowData
    original_row_cells := rowCells }

/-- All cells of the row are `None` or whitespace-only. -/
def isEmptyRowGE (rowData : List (Option CellValue)) : Bool :=
  rowData.all fun v =>
    match v with
    | none => true
    | some cv => pyStrip (cellText cv) = ""

/-- The stripped first cell of a row (`""` when absent or `None`; falsy
non-`None` values also print/strip to `""`). -/
def firstCellOf (rowData : List (Option CellValue)) : String :=
  match rowData.headD none with
  | none => ""
  | some cv => pyStrip (cellText cv)

/-- An optional open group, flushed at end of walk. -/
def optG : Option SequenceGroup → List SequenceGroup
  | none => []
  | some g => [g]

/-- The row walk of `parse_source_file`: every identifier row opens a new
group (never merged by identifier equality); data rows attach to the
open group; rows before any group are discarded; empty rows skipped. -/
def parseGo : List (Nat × List Cell) → Option SequenceGroup → List SequenceGroup
  | [], cur => optG cur
  | (idx, row) :: rest, cur =>
    let rowData := row.map Cell.value
    if isEmptyRowGE rowData then parseGo rest cur
    else
      match fullHeaderMatch (firstCellOf rowData) with
      | some pr =>
        optG cur ++ parseGo rest (some ⟨firstCellOf rowData, pr.2, []⟩)
      | none =>
        match cur with
        | none => parseGo rest none
        | some g =>
          let hl := is_row_highlighted row
          let entry := parseDataRow rowData idx g.seq_id g.ref_name hl.1 hl.2 row
          parseGo rest (some { g with all_entries := g.all_entries ++ [entry] })

/-- `parse_source_file` over an in-memory grid (1-based row numbers). -/
def parse_source_file (grid : List (List Cell)) : List SequenceGroup :=
  parseGo (grid.enum.map fun p => (p.1 + 1, p.2)) none

/-- `_is_red_color`: 8-digit `AARRGGBB` or 6-digit `RRGGBB`, red when
`R > 180 ∧ G < 100 ∧ B < 100`. -/
def is_red_color (rgbStr : String) : Bool :=
  if rgbStr = "" then false
  else
    let rgb := (pyUpper rgbStr).data
    match rgb with
    | [_, _, r1, r2, g1, g2, b1, b2] =>
      match hexPair r1 r2, hexPair g1 g2, hexPair b1 b2 with
      | some r, some g, some b => r > 180 && g < 100 && b < 100
      | _, _, _ => false
    | [r1, r2, g1, g2, b1, b2] =>
      match hexPair r1 r2, hexPair g1 g2, hexPair b1 b2 with
      | some r, some g, some b => r > 180 && g < 100 && b < 100
      | _, _, _ => false
    | _ => false

/-- `_extract_red_from_cell_with_position`: concatenated red runs of a
rich-text cell with the offset of the first red run, or the whole value
of a plain cell with a red whole-cell font; `("", -1)` otherwise. -/
def extractRedFromCellPos (cell : Cell) : String × Int :=
  match cell.value with
  | some (.rich runs) =>
    let acc := runs.foldl
      (fun (acc : Nat × Int × List String) run =>
        let isRed := match run.fontRgb with
          | some rgb => is_red_color rgb
          | none => false
        let upd : Int × List String :=
          if isRed && run.text ≠ "" then
            (if acc.2.1 = -1 then (acc.1 : Int) else acc.2.1, acc.2.2 ++ [run.text])
          else (acc.2.1, acc.2.2)
        (acc.1 + run.text.length, upd.1, upd.2))
      (0, -1, [])
    if acc.2.2 ≠ [] then (String.join acc.2.2, acc.2.1) else ("", -1)
  | _ =>
    match cell.fontRgb with
    | some rgb =>
      if is_red_color rgb then
        (match cell.value with
         | some cv => if cvTruthy cell.value then cellText cv else ""
         | none => "", 0)
      else ("", -1)
    | none => ("", -1)

/-- The attempt on one sequence column (H = index 7, I = index 8) of
`_extract_red_bases_from_sequence`: requires the cell to exist and its
value to be truthy, and the red extraction to be non-empty. -/
def tryRedCell (originalRow : List Cell) (i : Nat) : Option (String × Int × Int) :=
  match originalRow.get? i with
  | some c =>
    if cvTruthy c.value then
      let te := extractRedFromCellPos c
      if te.1 ≠ "" then some (te.1, te.2, te.2 + (te.1.length : Int)) else none
    else none
  | none => none

/-- Positions of lowercase base letters in a sequence. -/
def lowerBasePositions (sequence : String) : List Nat :=
  sequence.data.enum.filterMap fun p =>
    if p.2.isLower && decide (p.2.toUpper ∈ baseChars) then some p.1 else none

/-- `_extract_red_bases_from_sequence`: primary red-run extraction from the
H then the I cell; fallback to the 20-character window straddling the
first lowercase base (10 before, clipped to bounds) only when the
primary extraction yields nothing. -/
def extract_red_bases_from_sequence (sequence : String) (originalRow : List Cell) :
    String × Int × Int :=
  match tryRedCell originalRow 7 with
  | some r => r
  | none =>
    match tryRedCell originalRow 8 with
    | some r => r
    | none =>
      if sequence ≠ "" then
        match lowerBasePositions sequence with
        | [] => ("", -1, -1)
        | mpos :: _ =>
          let start0 := mpos - 10
          let stop0 := start0 + 20
          let span :=
            if stop0 > sequence.length then (sequence.length - 20, sequence.length)
            else (start0, stop0)
          (String.mk (pySlice sequence.data span.1 span.2), (span.1 : Int), (span.2 : Int))
      else ("", -1, -1)

/-- The wild-type output row of `simplify_data`. -/
def mkWTRow (seqId refName : String) (simplified : Bool) (e : SequenceEntry) :
    SimplifiedRow :=
  { sequence_id := seqId, reference_name := refName, row_type := "WT"
    red_20_bases := "-", original_row_values := e.original_row
    is_highlighted := false, highlight_color := ""
    original_row_num := e.row_number, is_simplified := simplified }

/-- The highlighted output row of `simplify_data`: red bases from the
red-run extraction, `"-"` sentinel when empty. -/
def mkSNPRow (seqId refName : String) (e : SequenceEntry) : SimplifiedRow :=
  let redBases :=
    if e.original_row_cells ≠ [] then
      (extract_red_bases_from_sequence e.full_sequence e.original_row_cells).1
    else ""
  { sequence_id := seqId, reference_name := refName, row_type := "SNP"
    red_20_bases := if redBases ≠ "" then redBases else "-"
    original_row_values := e.original_row
    is_highlighted := true, highlight_color := e.highlight_color
    original_row_num := e.row_number, is_simplified := false }

/-- The emission of `simplify_data` for one group: with highlights, all WT
rows then all highlighted rows; without, only WT rows marked simplified. -/
def simplifyGroup (g : SequenceGroup) : List SimplifiedRow :=
  let highlighted := g.all_entries.filter (fun e => e.is_highlighted)
  let wts := g.all_entries.filter (fun e => e.is_wt)
  if highlighted ≠ [] then
    wts.map (mkWTRow g.seq_id g.ref_name false) ++
      highlighted.map (mkSNPRow g.seq_id g.ref_name)
  else
    wts.map (mkWTRow g.seq_id g.ref_name true)

/-- `simplify_data` over the ordered group list. -/
def simplify_data (groups : List SequenceGroup) : List SimplifiedRow :=
  (groups.map simplifyGroup).flatten

end GE

namespace GE

/-- `f"{n:03d}"`: decimal with zero-padding to width 3. -/
def pad3 (n : Nat) : String :=
  let s := toString n
  if s.length ≥ 3 then s else String.mk (List.replicate (3 - s.length) '0') ++ s

/-- A cell with no value and no styling. -/
def emptyCell : Cell := ⟨none, none, none⟩

/-- A plain unstyled string cell. -/
def plainCell (s : String) : Cell := ⟨some (.str s), none, none⟩

/-- The header-row scan of `sort_gene_editing_file`:
`(row index, original digits, reference name)` of every row whose first
cell matches the full identifier pattern. -/
def seqIdRows (grid : List (List Cell)) : List (Nat × String × String) :=
  (grid.enum.map fun p => (p.1 + 1, p.2)).filterMap fun p =>
    let firstCell :=
      match (p.2.headD emptyCell).value with
      | none => ""
      | some cv => pyStrip (cellText cv)
    (fullHeaderMatch firstCell).map fun m => (p.1, m.1, m.2)

/-- The numbering walk: the counter increments exactly when the digit
token differs from the immediately preceding header's; output keeps
`(row index, counter, digits, reference name)`. -/
def assignNumbersAux : List (Nat × String × String) → Nat → Option String →
    List (Nat × Nat × String × String)
  | [], _, _ => []
  | (ridx, origNum, refName) :: rest, counter, prev =>
    let counter' := if some origNum = prev then counter else counter + 1
    (ridx, counter', origNum, refName) :: assignNumbersAux rest counter' (some origNum)

/-- Numbering of all header rows of a grid (counter starts at 0, no
previous token). -/
def headerNumbering (grid : List (List Cell)) : List (Nat × Nat × String × String) :=
  assignNumbersAux (seqIdRows grid) 0 none

/-- `row_to_new_seq`: header row index → rewritten zero-padded identifier. -/
def row_to_new_seq (grid : List (List Cell)) : List (Nat × String) :=
  (headerNumbering grid).map fun t => (t.1, pad3 t.2.1 ++ "-ref" ++ t.2.2.2)

/-- The copy loop of `sort_gene_editing_file`: every cell is copied with
its styling; only the first cell of a mapped header row gets the new
identifier as its value. -/
def renumberGrid (grid : List (List Cell)) : List (List Cell) :=
  (grid.enum.map fun p => (p.1 + 1, p.2)).map fun p =>
    match (row_to_new_seq grid).lookup p.1 with
    | some newId =>
      match p.2 with
      | [] => []
      | c0 :: rest => { c0 with value := some (.str newId) } :: rest
    | none => p.2

/-! ### Concrete grids for the counterexamples -/

/-- A >20-base sequence cell value reused by the sample grids. -/
def longSeq : String := "AAAATGGAGACACTAGAGGGATGGCCCC"

/-- No-highlight group whose WT row carries a value past the sequence
columns (index 9). -/
def gridC4 : List (List Cell) :=
  [[plainCell "001-refGeneA"],
   [emptyCell, plainCell "100", plainCell "5.00%", plainCell "WT", plainCell "WT",
    plainCell "-", plainCell "-", plainCell longSeq, plainCell longSeq, plainCell "EXTRA"]]

/-- H cell with a five-character red run `acgta` between black runs. -/
def richHCell : Cell :=
  ⟨some (.rich
    [⟨"TTTT", some "FF000000"⟩, ⟨"acgta", some "FFFF0000"⟩,
     ⟨"GGGGGGGGGGGGGGGG", some "FF000000"⟩]), none, none⟩

/-- Group with one yellow-highlighted SNP row whose H cell's red run has
five characters. -/
def gridC6 : List (List Cell) :=
  [[plainCell "002-refGeneB"],
   [⟨none, some "FFFFFF00", none⟩, plainCell "50", plainCell "10.00%", plainCell "SNP",
    plainCell "SNP", plainCell "C->T", plainCell "C->T", richHCell]]

/-- Two adjacent header rows with equal digits but different reference
names. -/
def gridC8 : List (List Cell) :=
  [[plainCell "007-refA"], [plainCell "007-refB"]]

/-- A single cell with the dark-gray fill `FF3C3C3C` (all channels 60). -/
def grayCellRow : List Cell := [⟨some (.str "x"), some "FF3C3C3C", none⟩]

end GE

namespace GE

/-- Group with one row that is simultaneously wild-type (both subtype
columns `WT`) and highlighted (yellow fill). -/
def gridC10 : List (List Cell) :=
  [[plainCell "003-refGeneC"],
   [⟨none, some "FFFFFF00", none⟩, plainCell "100", plainCell "5.00%", plainCell "WT",
    plainCell "WT", plainCell "-", plainCell "-", plainCell longSeq]]

/-- Placeholder entry used only as a `headD` default below. -/
def defaultEntry : SequenceEntry :=
  { sequence_id := "", reference_name := "", row_number := 0, depth := 0
    percentage_raw := "", data_type := "", snp_type := "", full_sequence := ""
    left_sequence := "", right_sequence := "", is_wt := false, is_highlighted := false
    highlight_color := "", has_valid_data := false, original_row := []
    original_row_cells := [] }

/-- Placeholder group used only as a `headD` default below. -/
def defaultGroup : SequenceGroup := ⟨"", "", []⟩

/-- The (single) parsed group of `gridC4`. -/
def groupC4 : SequenceGroup := (parse_source_file gridC4).headD defaultGroup

/-- The (single) parsed group of `gridC10`. -/
def groupC10 : SequenceGroup := (parse_source_file gridC10).headD defaultGroup

/-- The dual WT-and-highlighted entry of `groupC10`. -/
def entryC10 : SequenceEntry := groupC10.all_entries.headD defaultEntry

end GE

namespace GE

/-- The header projection of one row: the stripped first cell paired with
the captured reference name when the full identifier pattern matches
(used to state the ingestion theorem). -/
def headerOf (row : List Cell) : Option (String × String) :=
  (fullHeaderMatch (firstCellOf (row.map Cell.value))).map
    (fun pr => (firstCellOf (row.map Cell.value), pr.2))

end GE

/-! ## Theorems: mutation highlighting and verification -/

/-- C3. For the anchored WT window, a candidate identical to WT except a
lowercase `a` at window index 6 with claimed code `C->T` in both detail
columns is classified `error` by the Verifier (observed transition
`C->A`; the claimed target base `T` is not observed), and in the full
row loop the row receives no fill, no red window and no result record. -/
theorem C3_wrong_base_is_error_and_not_highlighted :
    MH.verifyMutationWithWT MH.wtExampleSeq MH.candWrongSeq "C->T" (4, 24) =
      ⟨"error", "C->A"⟩ ∧
    (MH.processGrid MH.gridWrong).rowFills = [] ∧
    (MH.processGrid MH.gridWrong).redRegions = [] ∧
    (MH.processGrid MH.gridWrong).results = [] := by
  refine ⟨by decide, by decide, by decide, by decide⟩

/-- C2. The Verifier classifies a candidate against the anchored WT window
by its observed lowercase transitions: an observed pair equal to the
claimed `(from, to)` gives `correct`; otherwise an observed transition
with the claimed `to` base but a different `from` base gives `error`;
no lowercase positions in the window gives `unknown`. Moreover, on the
worked example (WT `"AAAA" + window + "CCCC"`, candidate with lowercase
`t` at the offset of window index 6, claimed `C->T` in both columns) the
row loop records a `correct` result, fills the row yellow and re-renders
the `(4, 24)` window of the H cell red. -/
theorem C2_verifier_classification_and_example :
    (∀ (wt mseq claimed : String) (s e : Nat) (cf ct : Char),
      wt ≠ "" → mseq ≠ "" → e ≤ wt.length → e ≤ mseq.length →
      MH.parseClaimedMutation (pyUpper claimed) = some (cf, ct) →
      ((∃ m ∈ MH.observedTransitions (pySlice wt.data s e) (pySlice mseq.data s e),
          m.2.1 = cf ∧ m.2.2 = ct) →
        (MH.verifyMutationWithWT wt mseq claimed (s, e)).status = "correct") ∧
      ((∀ m ∈ MH.observedTransitions (pySlice wt.data s e) (pySlice mseq.data s e),
          ¬(m.2.1 = cf ∧ m.2.2 = ct)) →
       (∃ m ∈ MH.observedTransitions (pySlice wt.data s e) (pySlice mseq.data s e),
          m.2.2 = ct) →
        (MH.verifyMutationWithWT wt mseq claimed (s, e)).status = "error") ∧
      (MH.observedTransitions (pySlice wt.data s e) (pySlice mseq.data s e) = [] →
        (MH.verifyMutationWithWT wt mseq claimed (s, e)).status = "unknown")) ∧
    (MH.processGrid MH.gridCorrect).results.map
        (fun r => (r.verification_status, r.highlight_color, r.mutation_type)) =
      [("correct", "yellow", "C->T")] ∧
    (MH.processGrid MH.gridCorrect).rowFills = [(3, "yellow")] ∧
    (MH.processGrid MH.gridCorrect).redRegions = [(3, 4, 24)] := by
  refine ⟨?_, by decide, by decide, by decide⟩
  intro wt mseq claimed s e cf ct hwt hmut hew hem hparse
  have hg1 : ¬(wt = "" ∨ mseq = "") := by
    rintro (h | h) <;> [exact hwt h; exact hmut h]
  have hg2 : ¬(((s, e) : Nat × Nat).2 > wt.length ∨ ((s, e) : Nat × Nat).2 > mseq.length) := by
    simp only [not_or, not_lt]
    exact ⟨hew, hem⟩
  unfold MH.verifyMutationWithWT
  rw [if_neg hg1, if_neg hg2, hparse]
  dsimp only
  set obs := MH.observedTransitions (pySlice wt.data s e) (pySlice mseq.data s e) with hobs
  refine ⟨?_, ?_, ?_⟩
  · rintro ⟨m, hm, h1, h2⟩
    have hne : obs ≠ [] := by
      intro hnil; rw [hnil] at hm; exact absurd hm (List.not_mem_nil m)
    rw [dif_neg hne, if_pos]
    exact List.any_eq_true.mpr ⟨m, hm, by simp [h1, h2]⟩
  · rintro hall ⟨m, hm, hto⟩
    have hne : obs ≠ [] := by
      intro hnil; rw [hnil] at hm; exact absurd hm (List.not_mem_nil m)
    rw [dif_neg hne, if_neg, if_pos]
    · exact List.any_eq_true.mpr ⟨m, hm, by simp [hto]⟩
    · intro hany
      obtain ⟨m', hm', hp⟩ := List.any_eq_true.mp hany
      have := hall m' hm'
      simp only [decide_eq_true_eq] at hp
      exact this hp
  · intro hnil
    rw [dif_pos hnil]

/-- Witness for C2: the classification theorem applied at the worked
example's concrete window and candidate. -/
theorem C2_verifier_classification_witness :
    (MH.verifyMutationWithWT MH.wtExampleSeq MH.candCorrectSeq "C->T" (4, 24)).status =
      "correct" :=
  (C2_verifier_classification_and_example.1 MH.wtExampleSeq MH.candCorrectSeq "C->T" 4 24 'C' 'T'
    (by decide) (by decide) (by decide) (by decide) (by decide)).1 (by decide)

/-- C1 (code-bug evidence). A candidate passing the lowercase-target-base
precheck whose verification status is `error` (claimed `C->T`, observed
`G->T`) is skipped — no fill, no red window, no result record — but the
returned report's `error_mutations` details list and `error` counter
stay empty, because the skip happens before the record from which the
report is built is ever created. -/
theorem C1_error_candidate_skipped_but_absent_from_report :
    MH.verifyMutationWithWT MH.wtExampleSeq MH.candGTSeq "C->T" (4, 24) =
      ⟨"error", "G->T"⟩ ∧
    MH.checkMutationInPosition MH.candGTSeq "C->T" (4, 24) = true ∧
    (MH.processGrid MH.gridError).rowFills = [] ∧
    (MH.processGrid MH.gridError).redRegions = [] ∧
    (MH.processGrid MH.gridError).results = [] ∧
    MH.buildReport (MH.processGrid MH.gridError).results =
      { totalHighlighted := 0, correctCount := 0, errorCount := 0, unknownCount := 0,
        errorMutations := [] } := by
  refine ⟨by decide, by decide, by decide, by decide, by decide, by decide⟩

/-! ## Theorems: group simplification -/

/-- C4 counterexample. For the no-highlight group of `gridC4`, whose WT
row carries the value `"EXTRA"` at column index 9 (past the sequence
fields at 7/8), the emitted simplified row passes through all 10
original values — nothing is truncated to the structural columns. -/
theorem C4_counterexample_passthrough_not_truncated :
    (GE.simplify_data (GE.parse_source_file GE.gridC4)).map
        (fun r => (r.row_type, r.red_20_bases, r.is_simplified, r.original_row_values.length,
                   r.original_row_values.getD 9 none)) =
      [("WT", "-", true, 10, some (GE.CellValue.str "EXTRA"))] := by decide

/-- C4 (amended). For every group with zero highlighted rows the
simplifier emits exactly that group's wild-type rows and nothing else,
in their original order, each with `rowKind` WT, `redWindowBases` `"-"`
and `isSimplifiedGroup = true`, and with the row's **full** original
values passed through (the source keeps all columns; no truncation). -/
theorem C4_no_highlight_group_emits_wt_rows :
    ∀ g : GE.SequenceGroup,
      g.all_entries.filter (fun e => e.is_highlighted) = [] →
      (GE.simplifyGroup g).length = (g.all_entries.filter (fun e => e.is_wt)).length ∧
      (GE.simplifyGroup g).map (fun r => r.original_row_num)
        = (g.all_entries.filter (fun e => e.is_wt)).map (fun e => e.row_number) ∧
      (GE.simplifyGroup g).map (fun r => r.original_row_values)
        = (g.all_entries.filter (fun e => e.is_wt)).map (fun e => e.original_row) ∧
      ∀ r ∈ GE.simplifyGroup g,
        r.row_type = "WT" ∧ r.red_20_bases = "-" ∧ r.is_simplified = true := by
  intro g hhl
  unfold GE.simplifyGroup
  rw [hhl]
  simp only [ne_eq, not_true_eq_false, if_false]
  refine ⟨by simp, by simp [GE.mkWTRow, List.map_map], by simp [GE.mkWTRow, List.map_map], ?_⟩
  intro r hr
  obtain ⟨e, he, rfl⟩ := List.mem_map.mp hr
  exact ⟨rfl, rfl, rfl⟩

/-- Witness for C4 (amended), at the parsed no-highlight group of
`gridC4`. -/
theorem C4_no_highlight_group_witness :
    (GE.simplifyGroup GE.groupC4).length
      = (GE.groupC4.all_entries.filter (fun e => e.is_wt)).length :=
  (C4_no_highlight_group_emits_wt_rows GE.groupC4 (by decide)).1

/-- C5. For every group with at least one highlighted row, the simplifier
emits exactly the wild-type rows (as `mkWTRow`: WT kind, `"-"` bases)
followed by exactly the highlighted rows (as `mkSNPRow`: SNP kind, red
bases from the red-run extraction), each part in original relative
order, with total count `#WT + #highlighted` and
`isSimplifiedGroup = false` throughout; and the full output is the
group-order-preserving concatenation of per-group emissions. -/
theorem C5_highlighted_group_emission :
    (∀ g : GE.SequenceGroup,
      g.all_entries.filter (fun e => e.is_highlighted) ≠ [] →
      (GE.simplifyGroup g).length
        = (g.all_entries.filter (fun e => e.is_wt)).length
          + (g.all_entries.filter (fun e => e.is_highlighted)).length ∧
      (GE.simplifyGroup g).take (g.all_entries.filter (fun e => e.is_wt)).length
        = (g.all_entries.filter (fun e => e.is_wt)).map (GE.mkWTRow g.seq_id g.ref_name false) ∧
      (GE.simplifyGroup g).drop (g.all_entries.filter (fun e => e.is_wt)).length
        = (g.all_entries.filter (fun e => e.is_highlighted)).map
            (GE.mkSNPRow g.seq_id g.ref_name) ∧
      ∀ r ∈ GE.simplifyGroup g, r.is_simplified = false) ∧
    ∀ gs1 gs2 : List GE.SequenceGroup,
      GE.simplify_data (gs1 ++ gs2) = GE.simplify_data gs1 ++ GE.simplify_data gs2 := by
  constructor
  · intro g hhl
    unfold GE.simplifyGroup
    rw [if_pos hhl]
    have hlen : (g.all_entries.filter (fun e => e.is_wt)).length
        = ((g.all_entries.filter (fun e => e.is_wt)).map
            (GE.mkWTRow g.seq_id g.ref_name false)).length := (List.length_map _ _).symm
    refine ⟨by simp, ?_, ?_, ?_⟩
    · rw [hlen, List.take_left]
    · rw [hlen, List.drop_left]
    · intro r hr
      rcases List.mem_append.mp hr with h | h
      · obtain ⟨e, he, rfl⟩ := List.mem_map.mp h
        rfl
      · obtain ⟨e, he, rfl⟩ := List.mem_map.mp h
        rfl
  · intro gs1 gs2
    unfold GE.simplify_data
    rw [List.map_append, List.flatten_append]

/-- Witness for C5, at the parsed single-highlight group of `gridC10`. -/
theorem C5_highlighted_group_witness :
    (GE.simplifyGroup GE.groupC10).length
      = (GE.groupC10.all_entries.filter (fun e => e.is_wt)).length
        + (GE.groupC10.all_entries.filter (fun e => e.is_highlighted)).length :=
  (C5_highlighted_group_emission.1 GE.groupC10 (by decide)).1

/-- C10. The wild-type and highlighted selections of the simplifier are
independent filters: an entry that is both wild-type and highlighted is
emitted twice for its group — once as a WT row with `"-"` bases and
once as an SNP row with its highlight colour — and every output row
flagged highlighted is labelled `SNP` regardless of the entry's actual
variation type. -/
theorem C10_dual_emission_and_snp_label :
    ∀ (groups : List GE.SequenceGroup) (g : GE.SequenceGroup) (e : GE.SequenceEntry),
      g ∈ groups → e ∈ g.all_entries → e.is_wt = true → e.is_highlighted = true →
      GE.mkWTRow g.seq_id g.ref_name false e ∈ GE.simplify_data groups ∧
      GE.mkSNPRow g.seq_id g.ref_name e ∈ GE.simplify_data groups ∧
      ∀ r ∈ GE.simplify_data groups, r.is_highlighted = true → r.row_type = "SNP" := by
  intro groups g e hg he hwt hhl
  have hmemhl : e ∈ g.all_entries.filter (fun x => x.is_highlighted) :=
    List.mem_filter.mpr ⟨he, by simp [hhl]⟩
  have hne : g.all_entries.filter (fun x => x.is_highlighted) ≠ [] :=
    List.ne_nil_of_mem hmemhl
  have hsub : ∀ r ∈ GE.simplifyGroup g, r ∈ GE.simplify_data groups := by
    intro r hr
    exact List.mem_flatten.mpr ⟨GE.simplifyGroup g, List.mem_map.mpr ⟨g, hg, rfl⟩, hr⟩
  refine ⟨?_, ?_, ?_⟩
  · apply hsub
    unfold GE.simplifyGroup
    rw [if_pos hne]
    exact List.mem_append_left _
      (List.mem_map.mpr ⟨e, List.mem_filter.mpr ⟨he, by simp [hwt]⟩, rfl⟩)
  · apply hsub
    unfold GE.simplifyGroup
    rw [if_pos hne]
    exact List.mem_append_right _ (List.mem_map.mpr ⟨e, hmemhl, rfl⟩)
  · intro r hr hrhl
    obtain ⟨l, hl, hrl⟩ := List.mem_flatten.mp hr
    obtain ⟨g', hg', rfl⟩ := List.mem_map.mp hl
    unfold GE.simplifyGroup at hrl
    by_cases hcase : g'.all_entries.filter (fun x => x.is_highlighted) ≠ []
    · rw [if_pos hcase] at hrl
      rcases List.mem_append.mp hrl with h | h
      · obtain ⟨e', he', rfl⟩ := List.mem_map.mp h
        simp [GE.mkWTRow] at hrhl
      · obtain ⟨e', he', rfl⟩ := List.mem_map.mp h
        rfl
    · rw [if_neg hcase] at hrl
      obtain ⟨e', he', rfl⟩ := List.mem_map.mp hrl
      simp [GE.mkWTRow] at hrhl

/-- Witness for C10: the dual WT-and-highlighted entry of `gridC10` is
emitted both as a WT row and as an SNP row. -/
theorem C10_dual_emission_witness :
    GE.mkWTRow GE.groupC10.seq_id GE.groupC10.ref_name false GE.entryC10
        ∈ GE.simplify_data [GE.groupC10] ∧
    GE.mkSNPRow GE.groupC10.seq_id GE.groupC10.ref_name GE.entryC10
        ∈ GE.simplify_data [GE.groupC10] :=
  ⟨(C10_dual_emission_and_snp_label [GE.groupC10] GE.groupC10 GE.entryC10 (by decide)
      (by decide) (by decide) (by decide)).1,
   (C10_dual_emission_and_snp_label [GE.groupC10] GE.groupC10 GE.entryC10 (by decide)
      (by decide) (by decide) (by decide)).2.1⟩

/-! ## Theorems: red-run extraction -/

/-- Every lowercase-base position is an index into the sequence. -/
theorem lowerBasePositions_lt (s : String) (p : Nat) (hp : p ∈ GE.lowerBasePositions s) :
    p < s.length := by
  unfold GE.lowerBasePositions at hp
  obtain ⟨q, hq, hsome⟩ := List.mem_filterMap.mp hp
  by_cases hcond : (q.2.isLower && decide (q.2.toUpper ∈ baseChars)) = true
  · rw [if_pos hcond] at hsome
    obtain rfl : q.1 = p := Option.some.injEq _ _ ▸ hsome
    exact List.fst_lt_of_mem_enum hq
  · rw [if_neg hcond] at hsome
    exact absurd hsome (Option.noConfusion)

/-- C6 counterexample. The SNP row of `gridC6` gets `redWindowBases`
`"acgta"` — the H cell's red run copied verbatim — of length 5, not the
configured target length 20, even though extraction succeeded (not the
`"-"` sentinel). -/
theorem C6_counterexample_red_run_length_not_20 :
    (GE.simplify_data (GE.parse_source_file GE.gridC6)).map
        (fun r => (r.row_type, r.red_20_bases)) = [("SNP", "acgta")] ∧
    ∃ r ∈ GE.simplify_data (GE.parse_source_file GE.gridC6),
      r.red_20_bases ≠ "-" ∧ r.red_20_bases.length = 5 := by
  refine ⟨by decide, ?_⟩
  decide

/-- C6 (amended). The lowercase fallback of the extraction returns a
20-character window straddling the first lowercase base (10 before,
clipped to bounds) whenever the sequence holds at least 20 characters —
always true for parsed entries, whose sequence fields require more than
20 base characters; the primary extraction instead returns the cell's
red runs verbatim (of any length, as the counterexample shows), the H
cell is tried before the I cell, and the fallback runs only when both
fail. -/
theorem C6_fallback_window_and_primary_priority :
    (∀ (seq : String), 20 ≤ seq.length →
      ∀ p ps, GE.lowerBasePositions seq = p :: ps →
      (GE.extract_red_bases_from_sequence seq []).1.length = 20 ∧
      ∃ st : Nat, st + 20 ≤ seq.length ∧
        GE.extract_red_bases_from_sequence seq [] =
          (String.mk (pySlice seq.data st (st + 20)), (st : Int), ((st + 20 : Nat) : Int)) ∧
        st ≤ p ∧ p < st + 20) ∧
    (∀ (seq : String) (cells : List GE.Cell) (r : String × Int × Int),
      GE.tryRedCell cells 7 = some r →
      GE.extract_red_bases_from_sequence seq cells = r) ∧
    (∀ (seq : String) (cells : List GE.Cell) (r : String × Int × Int),
      GE.tryRedCell cells 7 = none → GE.tryRedCell cells 8 = some r →
      GE.extract_red_bases_from_sequence seq cells = r) := by
  refine ⟨?_, ?_, ?_⟩
  · intro seq hlen p ps hlow
    have hplt : p < seq.length :=
      lowerBasePositions_lt seq p (hlow ▸ List.mem_cons_self p ps)
    have hne : seq ≠ "" := by
      intro h
      rw [h] at hlen
      simp at hlen
    have hnone7 : GE.tryRedCell [] 7 = none := rfl
    have hnone8 : GE.tryRedCell [] 8 = none := rfl
    have hextract :
        GE.extract_red_bases_from_sequence seq [] =
          (let start0 := p - 10
           let stop0 := start0 + 20
           let span :=
             if stop0 > seq.length then (seq.length - 20, seq.length)
             else (start0, stop0)
           (String.mk (pySlice seq.data span.1 span.2), (span.1 : Int), (span.2 : Int))) := by
      unfold GE.extract_red_bases_from_sequence
      rw [hnone7, hnone8, if_pos hne, hlow]
    by_cases hclip : (p - 10) + 20 > seq.length
    · have hspan :
          GE.extract_red_bases_from_sequence seq [] =
            (String.mk (pySlice seq.data (seq.length - 20) seq.length),
              ((seq.length - 20 : Nat) : Int), ((seq.length : Nat) : Int)) := by
        rw [hextract]
        simp only [if_pos hclip]
      constructor
      · rw [hspan]
        show (pySlice seq.data (seq.length - 20) seq.length).length = 20
        unfold pySlice
        rw [List.length_take, List.length_drop]
        have : seq.data.length = seq.length := rfl
        omega
      · refine ⟨seq.length - 20, by omega, ?_, by omega, by omega⟩
        rw [hspan]
        have h20 : seq.length - 20 + 20 = seq.length := by omega
        rw [h20]
    · have hspan :
          GE.extract_red_bases_from_sequence seq [] =
            (String.mk (pySlice seq.data (p - 10) ((p - 10) + 20)),
              ((p - 10 : Nat) : Int), (((p - 10) + 20 : Nat) : Int)) := by
        rw [hextract]
        simp only [if_neg hclip]
      constructor
      · rw [hspan]
        show (pySlice seq.data (p - 10) ((p - 10) + 20)).length = 20
        unfold pySlice
        rw [List.length_take, List.length_drop]
        have : seq.data.length = seq.length := rfl
        omega
      · exact ⟨p - 10, by omega, hspan, by omega, by omega⟩
  · intro seq cells r h7
    unfold GE.extract_red_bases_from_sequence
    rw [h7]
  · intro seq cells r h7 h8
    unfold GE.extract_red_bases_from_sequence
    rw [h7, h8]

/-- Witness for C6 (amended): the fallback on the 28-character candidate
sequence yields a 20-character window, and the primary extraction on
`gridC6`'s data row copies the red run `acgta` at offset 4. -/
theorem C6_fallback_window_witness :
    (GE.extract_red_bases_from_sequence MH.candCorrectSeq []).1.length = 20 ∧
    GE.extract_red_bases_from_sequence "TTTTacgtaGGGGGGGGGGGGGGGG" (GE.gridC6.getD 1 [])
      = ("acgta", 4, 9) :=
  ⟨(C6_fallback_window_and_primary_priority.1 MH.candCorrectSeq (by decide) 10 []
      (by decide)).1,
   C6_fallback_window_and_primary_priority.2.1 "TTTTacgtaGGGGGGGGGGGGGGGG"
     (GE.gridC6.getD 1 []) ("acgta", 4, 9) (by decide)⟩

/-! ## Theorems: ingestion and grouping -/

/-- An all-empty row has an empty stripped first cell. -/
theorem emptyRow_firstCell (rowData : List (Option GE.CellValue))
    (h : GE.isEmptyRowGE rowData = true) : GE.firstCellOf rowData = "" := by
  cases rowData with
  | nil => rfl
  | cons v rest =>
    simp only [GE.isEmptyRowGE, List.all_cons, Bool.and_eq_true] at h
    cases v with
    | none => rfl
    | some cv =>
      simp only [GE.firstCellOf, List.headD_cons]
      simpa using h.1

/-- Projection invariant of the ingestion walk: the identifier/reference
pairs of the produced groups are the open group's followed by those of
the remaining header rows. -/
theorem parseGo_proj : ∀ (rows : List (Nat × List GE.Cell)) (cur : Option GE.SequenceGroup),
    (GE.parseGo rows cur).map (fun g => (g.seq_id, g.ref_name))
      = (GE.optG cur).map (fun g => (g.seq_id, g.ref_name))
        ++ rows.filterMap (fun p => GE.headerOf p.2) := by
  intro rows
  induction rows with
  | nil => intro cur; simp [GE.parseGo]
  | cons p rest ih =>
    intro cur
    obtain ⟨idx, row⟩ := p
    by_cases hemp : GE.isEmptyRowGE (row.map GE.Cell.value) = true
    · have hhdr : GE.headerOf row = none := by
        rw [GE.headerOf, emptyRow_firstCell _ hemp]
        decide
      simp only [GE.parseGo, hemp, if_true, List.filterMap_cons, hhdr]
      exact ih cur
    · rcases hm : GE.fullHeaderMatch (GE.firstCellOf (row.map GE.Cell.value)) with _ | pr
      · have hhdr : GE.headerOf row = none := by simp [GE.headerOf, hm]
        cases cur with
        | none =>
          simp only [GE.parseGo, hemp, if_false, hm, List.filterMap_cons, hhdr]
          exact ih none
        | some g =>
          simp only [GE.parseGo, hemp, if_false, hm, List.filterMap_cons, hhdr]
          exact ih _
      · have hhdr : GE.headerOf row =
            some (GE.firstCellOf (row.map GE.Cell.value), pr.2) := by
          simp [GE.headerOf, hm]
        simp only [GE.parseGo, hemp, hm, List.filterMap_cons, hhdr]
        rw [if_neg (by decide : ¬(false = true)), List.map_append,
          ih (some ⟨GE.firstCellOf (row.map GE.Cell.value), pr.2, []⟩)]
        simp [GE.optG]

/-- C7. Ingestion opens one new group per identifier row, in file order:
the `(seq_id, ref_name)` projection of the parsed groups equals the
header projection of the grid's rows. In particular a repeated
identifier token yields a new, distinct group each time it appears
(groups are never merged by identifier equality), and group order is
first-occurrence order. -/
theorem C7_one_group_per_header_row :
    ∀ grid : List (List GE.Cell),
      (GE.parse_source_file grid).map (fun g => (g.seq_id, g.ref_name))
        = grid.filterMap GE.headerOf := by
  intro grid
  unfold GE.parse_source_file
  rw [parseGo_proj]
  simp only [GE.optG, List.map_nil, List.nil_append]
  rw [List.filterMap_map]
  conv_rhs => rw [← List.enum_map_snd grid, List.filterMap_map]
  rfl

/-! ## Theorems: fill-colour classification -/

/-- C9 counterexample. The fill `FF3C3C3C` has all channels 60 — not
near-black under the spec's rule-1..6 thresholds (channels are not all
below 50) — yet the classifier yields no highlight, because rule 7
additionally requires some channel above 80. -/
theorem C9_counterexample_dark_gray_not_other :
    GE.is_row_highlighted GE.grayCellRow = (false, "") ∧
    GE.rgbOfColor "FF3C3C3C" = some (60, 60, 60) ∧
    ¬(60 < 50 ∧ 60 < 50 ∧ 60 < 50) := by
  refine ⟨by decide, by decide, by decide⟩

/-- C9 (amended). A row is `isHighlighted` exactly when at least one of
its cells' fills classifies into a bucket; near-white fills yield no
highlight; and after rules 1–6 all fail, the remaining fill is
classified `other` exactly when some channel exceeds 80 — remaining
fills with all channels at most 80 yield no highlight (not every
non-near-black fill becomes `other`). -/
theorem C9_ordered_rules_and_any_cell :
    (∀ cells : List GE.Cell,
      (GE.is_row_highlighted cells).1
        = cells.any (fun c => (GE.classifyFill c.fillRgb).isSome)) ∧
    (∀ (color : String) (r g b : Nat),
      r > 240 ∧ g > 240 ∧ b > 240 → GE.classifyRGB color r g b = none) ∧
    (∀ (color : String) (r g b : Nat),
      ¬(r > 240 ∧ g > 240 ∧ b > 240) →
      ¬(r = 0 ∧ g = 0 ∧ b = 0 ∧ pyUpper color = "00000000") →
      ¬(r > 200 ∧ g > 200 ∧ b < 100) →
      ¬(g > 180 ∧ g > r ∧ g > b ∧ b < 120) →
      ¬(b > 150 ∧ b > r ∧ b > g) →
      ¬(r > 200 ∧ b > 150 ∧ g < 180) →
      GE.classifyRGB color r g b =
        if r > 80 ∨ g > 80 ∨ b > 80 then some "other" else none) := by
  refine ⟨?_, ?_, ?_⟩
  · intro cells
    induction cells with
    | nil => rfl
    | cons c rest ih =>
      rcases hm : GE.classifyFill c.fillRgb with _ | bucket
      · simp [GE.is_row_highlighted, hm, ih]
      · simp [GE.is_row_highlighted, hm]
  · intro color r g b h
    unfold GE.classifyRGB
    rw [if_pos h]
  · intro color r g b h1 h2 h3 h4 h5 h6
    unfold GE.classifyRGB
    rw [if_neg h1, if_neg h2, if_neg h3, if_neg h4, if_neg h5, if_neg h6]
    by_cases h7 : r > 80 ∨ g > 80 ∨ b > 80
    · rw [if_pos (by omega : ¬(r < 50 ∧ g < 50 ∧ b < 50)), if_pos h7]
    · rw [if_neg h7]
      by_cases h8 : ¬(r < 50 ∧ g < 50 ∧ b < 50)
      · rw [if_pos h8]
      · rw [if_neg h8]


/-- Witness for C9 (amended): rules 1–6 fail on `(170,170,170)` and the
corrected rule 7 classifies it `other`. -/
theorem C9_ordered_rules_witness :
    GE.classifyRGB "FFAAAAAA" 170 170 170 = some "other" := by
  have h := C9_ordered_rules_and_any_cell.2.2 "FFAAAAAA" 170 170 170 (by decide) (by decide) (by decide)
    (by decide) (by decide) (by decide)
  simpa using h

/-! ## Theorems: group renumbering -/

/-- The numbering walk's consecutive invariant: each header's counter is
the previous header's counter, incremented exactly when the digit token
changes. -/
theorem assign_chain :
    ∀ (hs : List (Nat × String × String)) (c : Nat) (prev : Option String),
      List.Chain' (fun a b => b.2.1 = if b.2.2.1 = a.2.2.1 then a.2.1 else a.2.1 + 1)
        (GE.assignNumbersAux hs c prev) := by
  intro hs
  induction hs with
  | nil => intro c prev; simp [GE.assignNumbersAux]
  | cons h rest ih =>
    intro c prev
    obtain ⟨ridx, orig, ref⟩ := h
    rw [show GE.assignNumbersAux ((ridx, orig, ref) :: rest) c prev =
        (ridx, (if some orig = prev then c else c + 1), orig, ref) ::
          GE.assignNumbersAux rest (if some orig = prev then c else c + 1) (some orig)
      from rfl]
    rw [List.chain'_cons']
    refine ⟨?_, ih _ _⟩
    intro b hb
    cases rest with
    | nil => simp [GE.assignNumbersAux] at hb
    | cons h2 rest2 =>
      obtain ⟨ridx2, orig2, ref2⟩ := h2
      rw [show GE.assignNumbersAux ((ridx2, orig2, ref2) :: rest2)
            (if some orig = prev then c else c + 1) (some orig) =
          (ridx2,
            (if some orig2 = some orig then (if some orig = prev then c else c + 1)
             else (if some orig = prev then c else c + 1) + 1), orig2, ref2) ::
            GE.assignNumbersAux rest2
              (if some orig2 = some orig then (if some orig = prev then c else c + 1)
               else (if some orig = prev then c else c + 1) + 1) (some orig2)
        from rfl] at hb
      simp only [List.head?_cons, Option.mem_def, Option.some.injEq] at hb
      subst hb
      by_cases ho : orig2 = orig
      · simp [ho]
      · simp [ho]

/-- Along a numbering chain, counters never decrease. -/
theorem chain_counter_le :
    ∀ (l : List (Nat × Nat × String × String)) (x y : Nat × Nat × String × String),
      List.Chain' (fun a b => b.2.1 = if b.2.2.1 = a.2.2.1 then a.2.1 else a.2.1 + 1)
        (x :: l) →
      y ∈ l → x.2.1 ≤ y.2.1 := by
  intro l
  induction l with
  | nil => intro x y _ hy; cases hy
  | cons h t ih =>
    intro x y hc hy
    rw [List.chain'_cons] at hc
    have hle : x.2.1 ≤ h.2.1 := by
      rw [hc.1]; split <;> omega
    rcases List.mem_cons.mp hy with rfl | hy
    · exact hle
    · exact le_trans hle (ih h y hc.2 hy)

/-- Along a numbering chain, a later header with a different digit token
has a strictly greater counter. -/
theorem chain_counter_lt :
    ∀ (l : List (Nat × Nat × String × String)) (x y : Nat × Nat × String × String),
      List.Chain' (fun a b => b.2.1 = if b.2.2.1 = a.2.2.1 then a.2.1 else a.2.1 + 1)
        (x :: l) →
      y ∈ l → y.2.2.1 ≠ x.2.2.1 → x.2.1 < y.2.1 := by
  intro l
  induction l with
  | nil => intro x y _ hy; cases hy
  | cons h t ih =>
    intro x y hc hy hne
    rw [List.chain'_cons] at hc
    rcases List.mem_cons.mp hy with rfl | hy
    · rw [hc.1, if_neg hne]
      omega
    · by_cases htok : h.2.2.1 = x.2.2.1
      · have hx : x.2.1 = h.2.1 := by rw [hc.1, if_pos htok]
        rw [hx]
        refine ih h y hc.2 hy ?_
        rw [htok]
        exact hne
      · have hlt : x.2.1 < h.2.1 := by rw [hc.1, if_neg htok]; omega
        exact lt_of_lt_of_le hlt (chain_counter_le t h y hc.2 hy)

/-- C8 counterexample. Two adjacent header rows `007-refA` and `007-refB`
have different identifier tokens, yet the renumberer assigns both the
same number `001`: it compares only the digit prefix, not the token. -/
theorem C8_counterexample_digit_prefix_only :
    (GE.renumberGrid GE.gridC8).map (fun r => (r.headD GE.emptyCell).value) =
      [some (GE.CellValue.str "001-refA"), some (GE.CellValue.str "001-refB")] ∧
    (GE.headerNumbering GE.gridC8).map (fun t => t.2.1) = [1, 1] ∧
    ("007-refA" : String) ≠ "007-refB" := by
  refine ⟨by decide, by decide, by decide⟩

/-- C8 (amended). The renumberer assigns one zero-padded sequential number
per contiguous run of header rows sharing the same **numeric prefix**
(the digits before `-ref`, not the full identifier token): the counter
increments exactly when the digit token changes from the immediately
preceding header; a later reappearance of an earlier digit token, with
a different one in between, receives a strictly greater number (numbers
are never reused); and the copy loop preserves the grid's shape, every
non-header row, all cell styling, and every cell but the header's first,
whose value becomes the zero-padded new identifier. -/
theorem C8_renumber_runs_and_copy :
    (∀ (hs : List (Nat × String × String)) (c : Nat) (prev : Option String),
      List.Chain' (fun a b => b.2.1 = if b.2.2.1 = a.2.2.1 then a.2.1 else a.2.1 + 1)
        (GE.assignNumbersAux hs c prev)) ∧
    (∀ (hs : List (Nat × String × String)) (c : Nat) (prev : Option String)
       (l1 l2 l3 : List (Nat × Nat × String × String)) (x y z : Nat × Nat × String × String),
      GE.assignNumbersAux hs c prev = l1 ++ x :: (l2 ++ y :: l3) → z ∈ l3 →
      y.2.2.1 ≠ x.2.2.1 → x.2.1 < z.2.1) ∧
    (∀ grid : List (List GE.Cell), (GE.renumberGrid grid).length = grid.length) ∧
    (∀ (grid : List (List GE.Cell)) (i : Nat) (hi : i < grid.length)
       (hi2 : i < (GE.renumberGrid grid).length),
      ((GE.row_to_new_seq grid).lookup (i + 1) = none →
        (GE.renumberGrid grid).get ⟨i, hi2⟩ = grid.get ⟨i, hi⟩) ∧
      (∀ nid, (GE.row_to_new_seq grid).lookup (i + 1) = some nid →
        ((GE.renumberGrid grid).get ⟨i, hi2⟩).map (fun cell => (cell.fillRgb, cell.fontRgb))
            = (grid.get ⟨i, hi⟩).map (fun cell => (cell.fillRgb, cell.fontRgb)) ∧
        ((GE.renumberGrid grid).get ⟨i, hi2⟩).drop 1 = (grid.get ⟨i, hi⟩).drop 1 ∧
        ((GE.renumberGrid grid).get ⟨i, hi2⟩).head?.map (fun cell => cell.value)
            = (grid.get ⟨i, hi⟩).head?.map (fun _ => some (GE.CellValue.str nid)))) ∧
    (∀ grid : List (List GE.Cell),
      GE.row_to_new_seq grid = (GE.headerNumbering grid).map
        (fun t => (t.1, GE.pad3 t.2.1 ++ "-ref" ++ t.2.2.2))) := by
  refine ⟨assign_chain, ?_, ?_, ?_, fun _ => rfl⟩
  · intro hs c prev l1 l2 l3 x y z hout hz hne
    have hchain := assign_chain hs c prev
    rw [hout] at hchain
    have hsuffix1 : List.Chain'
        (fun a b => b.2.1 = if b.2.2.1 = a.2.2.1 then a.2.1 else a.2.1 + 1)
        (x :: (l2 ++ y :: l3)) := hchain.suffix ⟨l1, rfl⟩
    have hxy : x.2.1 < y.2.1 :=
      chain_counter_lt _ x y hsuffix1 (by simp) hne
    have hsuffix2 : List.Chain'
        (fun a b => b.2.1 = if b.2.2.1 = a.2.2.1 then a.2.1 else a.2.1 + 1)
        (y :: l3) := hchain.suffix ⟨l1 ++ x :: l2, by simp⟩
    have hyz : y.2.1 ≤ z.2.1 := chain_counter_le l3 y z hsuffix2 hz
    omega
  · intro grid
    simp [GE.renumberGrid]
  · intro grid i hi hi2
    have hget : (GE.renumberGrid grid).get ⟨i, hi2⟩ =
        (match (GE.row_to_new_seq grid).lookup (i + 1) with
         | some newId =>
           match grid.get ⟨i, hi⟩ with
           | [] => []
           | c0 :: rest => { c0 with value := some (GE.CellValue.str newId) } :: rest
         | none => grid.get ⟨i, hi⟩) := by
      simp [GE.renumberGrid, List.get_eq_getElem, List.getElem_enum]
    constructor
    · intro hnone
      rw [hget, hnone]
    · intro nid hsome
      rw [hget, hsome]
      cases hrow : grid.get ⟨i, hi⟩ with
      | nil => exact ⟨rfl, rfl, rfl⟩
      | cons c0 rest => exact ⟨rfl, rfl, rfl⟩

/-- Witness for C8 (amended): in the run `007, 008, 007` the second `007`
header receives number 3, strictly greater than the first's 1. -/
theorem C8_renumber_runs_witness :
    ((1, 1, "007", "A") : Nat × Nat × String × String).2.1
      < ((3, 3, "007", "C") : Nat × Nat × String × String).2.1 :=
  C8_renumber_runs_and_copy.2.1 [(1, "007", "A"), (2, "008", "B"), (3, "007", "C")] 0 none
    [] [] [(3, 3, "007", "C")] (1, 1, "007", "A") (2, 2, "008", "B") (3, 3, "007", "C")
    (by decide) (by decide) (by decide)
